import Mathlib

/-!
Verification of the paired-spectrum aligner and derived-curve builder used in
the `exploring_UV_extinction_curves` notebook.

The numeric model follows the host (IEEE-style) semantics the notebook relies
on: finite values are exact rationals, and division/log produce infinities or
NaN on degenerate input instead of raising.  The sign of a zero is not
tracked; this only matters for `log` of a zero, which is `-inf` for both
signed zeros, so the collapse is faithful.
-/

namespace ExtinctionCurves

/-- IEEE-style extended numeric value over a field of finite payloads:
a finite value, positive or negative infinity, or NaN. -/
inductive F (α : Type) where
  | fin (x : α)
  | inf
  | ninf
  | nan
deriving DecidableEq, Repr

/-- Division of two finite rationals with IEEE semantics as numpy applies it
to array elements: a nonzero value divided by zero is a signed infinity,
`0/0` is NaN, otherwise exact division. -/
def divQ (a b : ℚ) : F ℚ :=
  if b = 0 then
    if a = 0 then .nan else if 0 < a then .inf else .ninf
  else .fin (a / b)

/-- Division on extended values (numerator may already be non-finite),
with a finite or non-finite denominator, IEEE semantics: `x/±inf = 0`,
`±inf/finite` keeps the numerator sign composed with the denominator sign
(an unsigned rational zero denominator acts as `+0`), `inf/inf = NaN`,
and NaN propagates. -/
def fdiv : F ℚ → F ℚ → F ℚ
  | .nan, _ => .nan
  | .fin _, .nan => .nan
  | .inf, .nan => .nan
  | .ninf, .nan => .nan
  | .fin a, .fin b => divQ a b
  | .fin _, .inf => .fin 0
  | .fin _, .ninf => .fin 0
  | .inf, .fin b => if 0 ≤ b then .inf else .ninf
  | .ninf, .fin b => if 0 ≤ b then .ninf else .inf
  | .inf, .inf => .nan
  | .inf, .ninf => .nan
  | .ninf, .inf => .nan
  | .ninf, .ninf => .nan

/-- `np.log` on an extended value: the real logarithm on positive finite
input, `-inf` at zero, NaN on negative input, `log(inf) = inf`,
`log(-inf) = NaN`, NaN propagates. -/
noncomputable def logF : F ℚ → F ℝ
  | .fin q => if 0 < q then .fin (Real.log (q : ℝ)) else if q = 0 then .ninf else .nan
  | .inf => .inf
  | .ninf => .nan
  | .nan => .nan

open Classical in
/-- Division of an extended real by a finite rational scalar, IEEE
semantics (an unsigned rational zero denominator acts as `+0`). -/
noncomputable def divR (x : F ℝ) (d : ℚ) : F ℝ :=
  match x with
  | .nan => .nan
  | .inf => if d < 0 then .ninf else .inf
  | .ninf => if d < 0 then .inf else .ninf
  | .fin r =>
      if d = 0 then (if r = 0 then .nan else if 0 < r then .inf else .ninf)
      else .fin (r / (d : ℝ))

/-- Embed an extended rational into the extended reals. -/
def castR : F ℚ → F ℝ
  | .fin q => .fin (q : ℝ)
  | .inf => .inf
  | .ninf => .ninf
  | .nan => .nan

/-- `true` exactly on the finite constructor. -/
def isFin {α : Type} : F α → Bool
  | .fin _ => true
  | _ => false

/-- A value is non-finite when it is an infinity or NaN. -/
def nonFinite {α : Type} (x : F α) : Prop :=
  isFin x = false

/-- The `Extinction` helper of the notebook:

    def Extinction(wav, flux1, flux2):
        V_rat = V_dusty/V_nodust
        flux_rat = flux1/flux2
        ext = np.log(V_rat/flux_rat)/EBV
        inv_wav = 10**4/wav
        plt.plot(inv_wav, ext, 'o', markersize=2)
        return inv_wav, ext

The ambient module-level variables `V_dusty`, `V_nodust`, `EBV` become the
explicit parameters `Vdusty`, `Vnodust`, `EBV`; the `plt.plot` call is a
side effect on the external charting sink and does not affect the returned
pair, so it is not modelled.  numpy arrays become lists of rationals and
the elementwise array operations become `map`/`zipWith`. -/
noncomputable def Extinction (wav flux1 flux2 : List ℚ) (Vdusty Vnodust EBV : ℚ) :
    List (F ℝ) × List (F ℝ) :=
  let Vrat := divQ Vdusty Vnodust
  let fluxRat := List.zipWith divQ flux1 flux2
  let ext := fluxRat.map (fun fr => divR (logF (fdiv Vrat fr)) EBV)
  let invWav := wav.map (fun w => castR (divQ (10 ^ 4) w))
  (invWav, ext)

/-- A sample sequence of the data model: a parallel pair of an
independent-variable (wavelength) array and a dependent-variable (flux)
array, as extracted from one spectrum. -/
structure SampleSeq where
  wav : List ℚ
  flux : List ℚ
deriving DecidableEq, Repr

/-- The alignment cell of the notebook:

    wav_lw_nodust = wav_lw_nodust[:len(wav_lw_dusty)]
    flux_lw_nodust = flux_lw_nodust[:len(flux_lw_dusty)]

Only the nodust (reference, first argument) sequence is truncated, to the
length of the dusty (target, second argument) sequence; the dusty sequence
passes through unchanged.  Python slice clamping is `List.take`. -/
def align (nodust dusty : SampleSeq) : SampleSeq × SampleSeq :=
  (⟨nodust.wav.take dusty.wav.length, nodust.flux.take dusty.flux.length⟩, dusty)

/-- The edge-excision cell of the notebook applies Python slices
`seq[s_crop:]` and `seq[:l_crop]` (with `l_crop` negative) to each array;
the combined operation is `seq[s : len(seq)-e]`.  Python slicing clamps and
never raises, which is `drop`/`take` with truncated subtraction. -/
def crop {α : Type} (seq : List α) (s e : Nat) : List α :=
  (seq.drop s).take (seq.length - s - e)

/-- Cropping a sample sequence applies the same slice to both parallel
arrays, exactly as the cell does for `wav_sw_dusty[s_crop:]` and
`flux_sw_dusty[s_crop:]`. -/
def cropSeq (p : SampleSeq) (s e : Nat) : SampleSeq :=
  ⟨crop p.wav s e, crop p.flux s e⟩

/-- Error kind of the crop operation as the spec describes it. -/
inductive SeqError where
  | rangeError
deriving DecidableEq, Repr

/-- Modelled from the spec: the spec's `crop(seq, startOffset, endOffset)`,
which "fails with a RangeError kind if startOffset + endOffset >= len(seq)"
and otherwise drops `startOffset` samples from the front and `endOffset`
from the back.  This definition follows the spec's words and exists only to
be compared against the notebook's actual (total, clamping) slicing. -/
def cropSpec {α : Type} (seq : List α) (s e : Nat) : Except SeqError (List α) :=
  if seq.length ≤ s + e then .error .rangeError
  else .ok ((seq.drop s).take (seq.length - s - e))

end ExtinctionCurves
namespace ExtinctionCurves

/-! ### Helper lemmas -/

theorem crop_length {α : Type} (seq : List α) (s e : Nat) :
    (crop seq s e).length = seq.length - s - e := by
  simp only [crop, List.length_take, List.length_drop]
  omega

theorem crop_isInfix {α : Type} (seq : List α) (s e : Nat) :
    crop seq s e <:+: seq :=
  ((List.take_prefix _ _).isInfix).trans ((List.drop_suffix s seq).isInfix)

theorem sorted_of_isInfix {l m : List ℚ} (h : l <:+: m)
    (hm : List.Sorted (· ≤ ·) m) : List.Sorted (· ≤ ·) l :=
  List.Pairwise.sublist h.sublist hm

theorem getElem?_zipWith_some {α β γ : Type} (f : α → β → γ) :
    ∀ (l1 : List α) (l2 : List β) (i : Nat) (a : α) (b : β),
      l1[i]? = some a → l2[i]? = some b →
      (List.zipWith f l1 l2)[i]? = some (f a b) := by
  intro l1
  induction l1 with
  | nil => intro l2 i a b h1 _; simp at h1
  | cons x xs ih =>
    intro l2 i a b h1 h2
    cases l2 with
    | nil => simp at h2
    | cons y ys =>
      cases i with
      | zero =>
        simp only [List.getElem?_cons_zero, Option.some.injEq] at h1 h2
        simp [List.zipWith, h1, h2]
      | succ n =>
        simp only [List.getElem?_cons_succ] at h1 h2
        simpa [List.zipWith] using ih ys n a b h1 h2

theorem zipWith_congr_mem {α β γ : Type} (f g : α → β → γ) :
    ∀ (l1 : List α) (l2 : List β), (∀ a ∈ l1, ∀ b ∈ l2, f a b = g a b) →
      List.zipWith f l1 l2 = List.zipWith g l1 l2 := by
  intro l1
  induction l1 with
  | nil => intro l2 _; simp
  | cons x xs ih =>
    intro l2 h
    cases l2 with
    | nil => simp
    | cons y ys =>
      simp only [List.zipWith]
      rw [h x (by simp) y (by simp),
        ih ys (fun a ha b hb => h a (by simp [ha]) b (by simp [hb]))]

/-! ### Claim theorems -/

/-- C2, counterexample: the claim that `align(A, B)` always returns two
sequences of length `min(m, n)` is false on the code: with `A` of one
sample and `B` of two samples, the second output keeps its two samples,
because only the first (nodust) sequence is ever truncated. -/
theorem C2_align_counterexample :
    ¬ ((align (SampleSeq.mk [0] [0]) (SampleSeq.mk [1, 2] [1, 2])).1.wav.length
          = min 1 2 ∧
       (align (SampleSeq.mk [0] [0]) (SampleSeq.mk [1, 2] [1, 2])).2.wav.length
          = min 1 2) := by
  decide

/-- C2, amended: the alignment cell truncates only the first (nodust)
sequence, to the second (dusty) sequence's length, and returns the second
unchanged; hence whenever the second sequence is no longer than the first
(the situation of the notebook and of the 5-versus-3 scenario), both
outputs have length `min(m, n)` and equal the first `min(m, n)` elements
of the corresponding inputs. -/
theorem C2_align_amended (A B : SampleSeq)
    (hw : B.wav.length ≤ A.wav.length) (hf : B.flux.length ≤ A.flux.length) :
    (align A B).1.wav.length = min A.wav.length B.wav.length ∧
    (align A B).1.flux.length = min A.flux.length B.flux.length ∧
    (align A B).2.wav.length = min A.wav.length B.wav.length ∧
    (align A B).2.flux.length = min A.flux.length B.flux.length ∧
    (align A B).1.wav = A.wav.take B.wav.length ∧
    (align A B).1.flux = A.flux.take B.flux.length ∧
    (align A B).2 = B := by
  refine ⟨?_, ?_, ?_, ?_, rfl, rfl, rfl⟩ <;>
    simp [align, List.length_take] <;> omega

/-- C2, witness: concrete 5-element and 3-element sequences. -/
theorem C2_align_amended_witness :
    (align (SampleSeq.mk [0, 1, 2, 3, 4] [0, 1, 2, 3, 4])
        (SampleSeq.mk [5, 6, 7] [5, 6, 7])).1.wav
      = ([0, 1, 2, 3, 4] : List ℚ).take 3 ∧
    (align (SampleSeq.mk [0, 1, 2, 3, 4] [0, 1, 2, 3, 4])
        (SampleSeq.mk [5, 6, 7] [5, 6, 7])).2
      = SampleSeq.mk [5, 6, 7] [5, 6, 7] := by
  have h := C2_align_amended (SampleSeq.mk [0, 1, 2, 3, 4] [0, 1, 2, 3, 4])
    (SampleSeq.mk [5, 6, 7] [5, 6, 7]) (by decide) (by decide)
  exact ⟨h.2.2.2.2.1, h.2.2.2.2.2.2⟩

/-- C3, counterexample: the claim that `crop` fails with a `RangeError`
exactly when `startOffset + endOffset >= len(seq)` is false on the code:
Python slicing clamps, so at `seq = [0]`, `s = 1`, `e = 0` the code
returns the empty list while the spec's crop demands an error. -/
theorem C3_crop_counterexample :
    crop ([0] : List ℚ) 1 0 = [] ∧
    cropSpec ([0] : List ℚ) 1 0 = .error .rangeError :=
  ⟨rfl, rfl⟩

/-- C3, amended: `crop` never fails; it agrees with the spec's crop on
in-range offsets, and when `startOffset + endOffset >= len(seq)` it
returns the empty sequence (the clamped slice) where the spec's crop
would report a `RangeError`. -/
theorem C3_crop_amended {α : Type} (seq : List α) (s e : Nat) :
    (s + e < seq.length → cropSpec seq s e = .ok (crop seq s e)) ∧
    (seq.length ≤ s + e →
      crop seq s e = [] ∧ cropSpec seq s e = .error .rangeError) := by
  constructor
  · intro h
    rw [cropSpec, if_neg (by omega)]
    rfl
  · intro h
    refine ⟨?_, by rw [cropSpec, if_pos h]⟩
    have h0 : seq.length - s - e = 0 := by omega
    simp [crop, h0]

/-- C3, witness: an in-range crop agrees with the spec, and an
out-of-range crop yields the empty list where the spec errors. -/
theorem C3_crop_amended_witness :
    cropSpec ([0, 1, 2, 3] : List ℚ) 1 1 = .ok (crop ([0, 1, 2, 3] : List ℚ) 1 1) ∧
    (crop ([0] : List ℚ) 0 5 = [] ∧
     cropSpec ([0] : List ℚ) 0 5 = .error .rangeError) :=
  ⟨(C3_crop_amended ([0, 1, 2, 3] : List ℚ) 1 1).1 (by decide),
   (C3_crop_amended ([0] : List ℚ) 0 5).2 (by decide)⟩

/-- C4: on in-range offsets, `crop` drops the first `s` and last `e`
elements, keeping the middle in original order, and the result has
length `len(seq) - s - e`. -/
theorem C4_crop (seq : List ℚ) (s e : Nat) (h : s + e < seq.length) :
    (crop seq s e).length = seq.length - s - e ∧
    crop seq s e = (seq.take (seq.length - e)).drop s := by
  refine ⟨crop_length seq s e, ?_⟩
  rw [crop, List.drop_take]
  congr 1
  omega

/-- C4, witness: `crop([0..9], 2, 3) = [2, 3, 4, 5, 6]`. -/
theorem C4_crop_witness :
    crop ([0, 1, 2, 3, 4, 5, 6, 7, 8, 9] : List ℚ) 2 3 = [2, 3, 4, 5, 6] ∧
    ((crop ([0, 1, 2, 3, 4, 5, 6, 7, 8, 9] : List ℚ) 2 3).length
        = ([0, 1, 2, 3, 4, 5, 6, 7, 8, 9] : List ℚ).length - 2 - 3 ∧
     crop ([0, 1, 2, 3, 4, 5, 6, 7, 8, 9] : List ℚ) 2 3
        = (([0, 1, 2, 3, 4, 5, 6, 7, 8, 9] : List ℚ).take
            (([0, 1, 2, 3, 4, 5, 6, 7, 8, 9] : List ℚ).length - 3)).drop 2) :=
  ⟨by decide, C4_crop ([0, 1, 2, 3, 4, 5, 6, 7, 8, 9] : List ℚ) 2 3 (by decide)⟩

/-- C8: alignment is one-sided: the second (dusty, target) sequence passes
through unchanged and only the first (nodust, reference) sequence is
truncated, to the target's length; if the target is strictly longer, the
first sequence is returned whole and the two outputs keep unequal
lengths. -/
theorem C8_align_one_sided (A B : SampleSeq) :
    (align A B).2 = B ∧
    (align A B).1.wav = A.wav.take B.wav.length ∧
    (align A B).1.flux = A.flux.take B.flux.length ∧
    (A.wav.length ≤ B.wav.length → (align A B).1.wav = A.wav) ∧
    (A.flux.length ≤ B.flux.length → (align A B).1.flux = A.flux) ∧
    (A.wav.length < B.wav.length →
      (align A B).1.wav.length ≠ (align A B).2.wav.length) := by
  refine ⟨rfl, rfl, rfl, ?_, ?_, ?_⟩
  · intro h; exact List.take_of_length_le h
  · intro h; exact List.take_of_length_le h
  · intro h
    simp only [align, List.length_take]
    omega

/-- C8, witness: with a 1-sample reference and a 2-sample target, the
target passes through and the outputs keep unequal lengths. -/
theorem C8_align_one_sided_witness :
    (align (SampleSeq.mk [0] [0]) (SampleSeq.mk [1, 2] [1, 2])).2
      = SampleSeq.mk [1, 2] [1, 2] ∧
    (align (SampleSeq.mk [0] [0]) (SampleSeq.mk [1, 2] [1, 2])).1.wav = [0] ∧
    (align (SampleSeq.mk [0] [0]) (SampleSeq.mk [1, 2] [1, 2])).1.wav.length
      ≠ (align (SampleSeq.mk [0] [0]) (SampleSeq.mk [1, 2] [1, 2])).2.wav.length := by
  have h := C8_align_one_sided (SampleSeq.mk [0] [0]) (SampleSeq.mk [1, 2] [1, 2])
  exact ⟨h.1, h.2.2.2.1 (by decide), h.2.2.2.2.2 (by decide)⟩

/-- C9: `crop` is total for all non-negative offsets: its length is the
truncated (clamped-at-zero) difference `len(seq) - s - e`, never more
than the input length; out-of-range offsets yield a shorter, possibly
empty, list rather than an error. -/
theorem C9_crop_total (seq : List ℚ) (s e : Nat) :
    (crop seq s e).length = seq.length - s - e ∧
    (crop seq s e).length ≤ seq.length := by
  refine ⟨crop_length seq s e, ?_⟩
  rw [crop_length seq s e]
  omega

/-- C10: `align` and `crop` return contiguous subsequences (infixes) of
their inputs; consequently a non-decreasing independent-variable array
stays non-decreasing, and parallel arrays of equal length stay of equal
length. -/
theorem C10_subseq_invariants (A B : SampleSeq) (p : SampleSeq) (s e : Nat) :
    ((align A B).1.wav <:+: A.wav) ∧ ((align A B).1.flux <:+: A.flux) ∧
    ((align A B).2.wav <:+: B.wav) ∧ ((align A B).2.flux <:+: B.flux) ∧
    ((cropSeq p s e).wav <:+: p.wav) ∧ ((cropSeq p s e).flux <:+: p.flux) ∧
    (List.Sorted (· ≤ ·) A.wav → List.Sorted (· ≤ ·) (align A B).1.wav) ∧
    (List.Sorted (· ≤ ·) B.wav → List.Sorted (· ≤ ·) (align A B).2.wav) ∧
    (List.Sorted (· ≤ ·) p.wav → List.Sorted (· ≤ ·) (cropSeq p s e).wav) ∧
    (A.wav.length = A.flux.length → B.wav.length = B.flux.length →
      (align A B).1.wav.length = (align A B).1.flux.length ∧
      (align A B).2.wav.length = (align A B).2.flux.length) ∧
    (p.wav.length = p.flux.length →
      (cropSeq p s e).wav.length = (cropSeq p s e).flux.length) := by
  have h1 : (align A B).1.wav <:+: A.wav := (List.take_prefix _ _).isInfix
  have h2 : (align A B).1.flux <:+: A.flux := (List.take_prefix _ _).isInfix
  have h5 : (cropSeq p s e).wav <:+: p.wav := crop_isInfix _ _ _
  have h6 : (cropSeq p s e).flux <:+: p.flux := crop_isInfix _ _ _
  refine ⟨h1, h2, List.infix_rfl, List.infix_rfl, h5, h6,
    fun hs => sorted_of_isInfix h1 hs,
    fun hs => hs,
    fun hs => sorted_of_isInfix h5 hs, ?_, ?_⟩
  · intro hA hB
    constructor
    · simp only [align, List.length_take]
      omega
    · exact hB
  · intro hp
    show (crop p.wav s e).length = (crop p.flux s e).length
    rw [crop_length, crop_length, hp]

/-- C10, witness: a concrete aligned-and-cropped pair keeps sortedness
and parallel lengths. -/
theorem C10_subseq_invariants_witness :
    List.Sorted (· ≤ ·)
      (align (SampleSeq.mk [1, 2, 3] [9, 8, 7]) (SampleSeq.mk [4, 5] [6, 5])).1.wav ∧
    List.Sorted (· ≤ ·) (cropSeq (SampleSeq.mk [1, 2, 3] [9, 8, 7]) 1 1).wav ∧
    (cropSeq (SampleSeq.mk [1, 2, 3] [9, 8, 7]) 1 1).wav.length
      = (cropSeq (SampleSeq.mk [1, 2, 3] [9, 8, 7]) 1 1).flux.length := by
  have h := C10_subseq_invariants (SampleSeq.mk [1, 2, 3] [9, 8, 7])
    (SampleSeq.mk [4, 5] [6, 5]) (SampleSeq.mk [1, 2, 3] [9, 8, 7]) 1 1
  exact ⟨h.2.2.2.2.2.2.1 (by decide), h.2.2.2.2.2.2.2.2.1 (by decide),
    h.2.2.2.2.2.2.2.2.2.2 (by decide)⟩

end ExtinctionCurves
namespace ExtinctionCurves

/-! ### Extinction pipeline lemmas -/

theorem divQ_zero_right (a : ℚ) :
    divQ a 0 = F.nan ∨ divQ a 0 = F.inf ∨ divQ a 0 = F.ninf := by
  rcases lt_trichotomy a 0 with h | h | h
  · right; right
    rw [divQ, if_pos rfl, if_neg h.ne, if_neg (not_lt.mpr h.le)]
  · left
    rw [divQ, if_pos rfl, if_pos h]
  · right; left
    rw [divQ, if_pos rfl, if_neg (ne_of_gt h), if_pos h]

theorem nonFinite_divR (x : F ℝ) (d : ℚ) (hx : nonFinite x) :
    nonFinite (divR x d) := by
  cases x with
  | fin r => simp [nonFinite, isFin] at hx
  | inf =>
    simp only [divR]
    split <;> simp [nonFinite, isFin]
  | ninf =>
    simp only [divR]
    split <;> simp [nonFinite, isFin]
  | nan => simp [divR, nonFinite, isFin]

theorem nonFinite_logF_fdiv_right (v y : F ℚ)
    (hy : y = F.nan ∨ y = F.inf ∨ y = F.ninf) (d : ℚ) :
    nonFinite (divR (logF (fdiv v y)) d) := by
  apply nonFinite_divR
  rcases hy with h | h | h <;> subst h <;> cases v <;>
    simp [fdiv, logF, nonFinite, isFin]

theorem nonFinite_logF_fdiv_left (x fr : F ℚ)
    (hx : x = F.nan ∨ x = F.inf ∨ x = F.ninf) (d : ℚ) :
    nonFinite (divR (logF (fdiv x fr)) d) := by
  apply nonFinite_divR
  rcases hx with h | h | h <;> subst h <;> cases fr <;>
    first
      | (simp only [fdiv]; split <;> simp [logF, nonFinite, isFin])
      | simp [fdiv, logF, nonFinite, isFin]

theorem derived_pointwise (tN rN nD a b : ℚ) (htN : 0 < tN) (hrN : 0 < rN)
    (hnD : nD ≠ 0) (ha : 0 < a) (hb : 0 < b) :
    divR (logF (fdiv (divQ tN rN) (divQ a b))) nD
      = F.fin (Real.log (((tN : ℝ) / (rN : ℝ)) / ((a : ℝ) / (b : ℝ))) / (nD : ℝ)) := by
  have hrN0 : rN ≠ 0 := ne_of_gt hrN
  have hb0 : b ≠ 0 := ne_of_gt hb
  have hab : a / b ≠ 0 := div_ne_zero (ne_of_gt ha) hb0
  have hpos : 0 < (tN / rN) / (a / b) := by positivity
  rw [divQ, if_neg hrN0, divQ, if_neg hb0]
  show divR (logF (divQ (tN / rN) (a / b))) nD = _
  rw [divQ, if_neg hab]
  show divR (logF (F.fin ((tN / rN) / (a / b)))) nD = _
  simp only [logF, if_pos hpos, divR, if_neg hnD]
  push_cast
  rfl

theorem divQ_mul_left (c : ℚ) (hc : 0 < c) (a b : ℚ) :
    divQ (c * a) (c * b) = divQ a b := by
  have hc0 : c ≠ 0 := ne_of_gt hc
  by_cases hb : b = 0
  · subst hb
    rw [mul_zero]
    have h1 : c * a = 0 ↔ a = 0 := by
      constructor
      · intro h
        rcases mul_eq_zero.mp h with h | h
        · exact absurd h hc0
        · exact h
      · intro h
        rw [h, mul_zero]
    have h2 : 0 < c * a ↔ 0 < a := mul_pos_iff_of_pos_left hc
    by_cases ha : a = 0
    · rw [divQ, if_pos rfl, if_pos (h1.mpr ha), divQ, if_pos rfl, if_pos ha]
    · by_cases ha2 : 0 < a
      · rw [divQ, if_pos rfl, if_neg (fun hh => ha (h1.mp hh)),
          if_pos (h2.mpr ha2), divQ, if_pos rfl, if_neg ha, if_pos ha2]
      · rw [divQ, if_pos rfl, if_neg (fun hh => ha (h1.mp hh)),
          if_neg (fun hh => ha2 (h2.mp hh)), divQ, if_pos rfl, if_neg ha, if_neg ha2]
  · have hcb : c * b ≠ 0 := mul_ne_zero hc0 hb
    rw [divQ, if_neg hcb, divQ, if_neg hb, mul_div_mul_left _ _ hc0]

/-! ### Claim theorems for the derived-curve builder -/

/-- C1: on equal-length positive flux arrays, positive normalization
constants, a non-zero color-excess normalization and non-zero
wavelengths, the notebook's `Extinction` returns the inverse-wavelength
axis `10^4 / wav[i]` paired with the derived values
`ln((targetNorm/referenceNorm) / (fluxTarget[i]/fluxReference[i])) /
normDifference`, with both outputs of the input lengths. -/
theorem C1_deriveCurve (wav fT fR : List ℚ) (tN rN nD : ℚ)
    (hlen : fT.length = fR.length)
    (htN : 0 < tN) (hrN : 0 < rN) (hnD : nD ≠ 0)
    (hfT : ∀ x ∈ fT, 0 < x) (hfR : ∀ x ∈ fR, 0 < x)
    (hw : ∀ x ∈ wav, x ≠ 0) :
    Extinction wav fT fR tN rN nD =
      (wav.map (fun (w : ℚ) => F.fin ((10 ^ 4 : ℝ) / (w : ℝ))),
       List.zipWith
         (fun (a b : ℚ) =>
           F.fin (Real.log (((tN : ℝ) / (rN : ℝ)) / ((a : ℝ) / (b : ℝ))) / (nD : ℝ)))
         fT fR) ∧
    ((Extinction wav fT fR tN rN nD).2).length = fT.length ∧
    ((Extinction wav fT fR tN rN nD).1).length = wav.length := by
  refine ⟨?_, ?_, ?_⟩
  · simp only [Extinction, Prod.mk.injEq]
    constructor
    · apply List.map_congr_left
      intro w hwm
      have hw0 : w ≠ 0 := hw w hwm
      rw [divQ, if_neg hw0]
      show F.fin (((10 ^ 4 / w : ℚ) : ℝ)) = _
      push_cast
      rfl
    · rw [List.map_zipWith]
      apply zipWith_congr_mem
      intro a ham b hbm
      exact derived_pointwise tN rN nD a b htN hrN hnD (hfT a ham) (hfR b hbm)
  · show ((List.zipWith divQ fT fR).map _).length = _
    rw [List.length_map, List.length_zipWith, hlen, min_self]
  · show (wav.map _).length = _
    rw [List.length_map]

/-- C1, witness: the spec's concrete scenario, with wavelengths
`[1, 2, 4]`: the derived values are `[ln 1, ln (1/2), ln (1/4)]`. -/
theorem C1_deriveCurve_witness :
    Extinction [1, 2, 4] [1, 2, 4] [2, 2, 2] 1 2 1
      = ([F.fin 10000, F.fin 5000, F.fin 2500],
         [F.fin (Real.log 1), F.fin (Real.log (1 / 2)), F.fin (Real.log (1 / 4))]) := by
  have h := C1_deriveCurve [1, 2, 4] [1, 2, 4] [2, 2, 2] 1 2 1 rfl (by norm_num)
    (by norm_num) (by norm_num) (by decide) (by decide) (by decide)
  rw [h.1]
  norm_num [List.zipWith]

/-- C5: `Extinction` is a total function, and a zero reference flux at
index i (or a zero reference normalization) makes the derived value at
index i non-finite (an infinity or NaN) rather than an error. -/
theorem C5_deriveCurve_degenerate (wav fT fR : List ℚ) (tN rN nD : ℚ)
    (i : Nat) (a b : ℚ)
    (ha : fT[i]? = some a) (hb : fR[i]? = some b) (hdeg : b = 0 ∨ rN = 0) :
    (((Extinction wav fT fR tN rN nD).2)[i]?).map isFin = some false := by
  have hz : (List.zipWith divQ fT fR)[i]? = some (divQ a b) :=
    getElem?_zipWith_some divQ fT fR i a b ha hb
  show (((List.zipWith divQ fT fR).map
      (fun fr => divR (logF (fdiv (divQ tN rN) fr)) nD))[i]?).map isFin = some false
  rw [List.getElem?_map, hz]
  show some (isFin (divR (logF (fdiv (divQ tN rN) (divQ a b))) nD)) = some false
  rcases hdeg with h | h
  · subst h
    exact congrArg some
      (nonFinite_logF_fdiv_right (divQ tN rN) (divQ a 0) (divQ_zero_right a) nD)
  · subst h
    exact congrArg some
      (nonFinite_logF_fdiv_left (divQ tN 0) (divQ a b) (divQ_zero_right tN) nD)

/-- C5, witness: with `fluxReference[0] = 0` the derived value at index 0
exists and is non-finite. -/
theorem C5_deriveCurve_degenerate_witness :
    (((Extinction [1] [1] [0] 1 2 1).2)[0]?).map isFin = some false :=
  C5_deriveCurve_degenerate [1] [1] [0] 1 2 1 0 1 0 rfl rfl (Or.inl rfl)

/-- C6: scaling both flux arrays elementwise by the same positive constant
leaves the output of `Extinction` unchanged (the constant cancels in the
per-sample flux ratio, also in the degenerate zero-denominator cases). -/
theorem C6_scaling (wav fT fR : List ℚ) (tN rN nD c : ℚ) (hc : 0 < c) :
    Extinction wav (fT.map (fun x => c * x)) (fR.map (fun x => c * x)) tN rN nD
      = Extinction wav fT fR tN rN nD := by
  simp only [Extinction, List.zipWith_map]
  rw [zipWith_congr_mem (fun a b => divQ (c * a) (c * b)) divQ fT fR
    (fun a _ b _ => divQ_mul_left c hc a b)]

/-- C6, witness: scaling the concrete fluxes by 2 (including a zero
reference sample) leaves the output unchanged. -/
theorem C6_scaling_witness :
    Extinction [1] (([1, 2] : List ℚ).map (fun x => 2 * x))
        (([3, 0] : List ℚ).map (fun x => 2 * x)) 1 2 1
      = Extinction [1] [1, 2] [3, 0] 1 2 1 :=
  C6_scaling [1] [1, 2] [3, 0] 1 2 1 2 (by norm_num)

/-- C7: the three operations are deterministic functions of their explicit
arguments alone: invocations on equal inputs yield equal outputs.  The
ambient notebook variables consumed by the `Extinction` cell are among
the explicit arguments of the embedded function, and the plotting side
effect does not feed back into any result. -/
theorem C7_pure_deterministic (wav fT fR wav2 fT2 fR2 : List ℚ)
    (tN rN nD tN2 rN2 nD2 : ℚ) (A B A2 B2 : SampleSeq)
    (seq seq2 : List ℚ) (s e s2 e2 : Nat)
    (h1 : wav = wav2) (h2 : fT = fT2) (h3 : fR = fR2)
    (h4 : tN = tN2) (h5 : rN = rN2) (h6 : nD = nD2)
    (h7 : A = A2) (h8 : B = B2)
    (h9 : seq = seq2) (h10 : s = s2) (h11 : e = e2) :
    Extinction wav fT fR tN rN nD = Extinction wav2 fT2 fR2 tN2 rN2 nD2 ∧
    align A B = align A2 B2 ∧
    crop seq s e = crop seq2 s2 e2 := by
  subst h1 h2 h3 h4 h5 h6 h7 h8 h9 h10 h11
  exact ⟨rfl, rfl, rfl⟩

/-- C7, witness: re-invocation on identical concrete inputs. -/
theorem C7_pure_deterministic_witness :
    Extinction [1] [2] [3] 1 2 1 = Extinction [1] [2] [3] 1 2 1 ∧
    align (SampleSeq.mk [1] [2]) (SampleSeq.mk [3] [4])
      = align (SampleSeq.mk [1] [2]) (SampleSeq.mk [3] [4]) ∧
    crop ([1, 2] : List ℚ) 1 0 = crop ([1, 2] : List ℚ) 1 0 :=
  C7_pure_deterministic [1] [2] [3] [1] [2] [3] 1 2 1 1 2 1
    (SampleSeq.mk [1] [2]) (SampleSeq.mk [3] [4])
    (SampleSeq.mk [1] [2]) (SampleSeq.mk [3] [4])
    [1, 2] [1, 2] 1 0 1 0 rfl rfl rfl rfl rfl rfl rfl rfl rfl rfl rfl

end ExtinctionCurves
